import Mathlib

/-!
Shallow embedding of the `fsm` package of the fsmbuilder repository
(`fsm/fsm.go`), together with the modulo-3 automaton built by `main.go`.

Modelling conventions:

* Go `map[K]bool` sets (`states`, `alphabet`, `finalStates`) are modelled as
  insertion-ordered duplicate-free lists: `m[k] = true` on a key already
  present is a no-op, a new key is appended (`insertLabel`).  Only membership
  and emptiness of these maps are ever observed by the code, so the list
  order is immaterial except that it fixes the (in Go unspecified) iteration
  order of the totality scan in `Build`.
* The Go `map[TransitionKey]State` is modelled as an association list.
  `AddTransition` refuses to overwrite an existing key, so the list never
  holds two entries for the same key.
* Every Go method mutates the `FSM` held behind the `Builder`'s pointer and
  returns `(builder, error)`; here this becomes explicit state passing: an
  operation takes the current `FSM` value and returns the updated value
  together with an `Option String` carrying the `fmt.Errorf` message.
* `Build` returns `b.fsm` itself — the very object the `Builder` keeps a
  pointer to.  In this embedding the value returned by a successful `build`
  is therefore at the same time the post-`Build` state of the builder:
  applying a further builder operation to it is exactly what the Go code
  does to the shared object.
* Go's `for _, char := range input` iterates the runes of the string and
  `Symbol(char)` renders one rune as a one-rune string; this is modelled by
  `String.toList` and `String.singleton`.
-/

namespace Fsm

/-- Go `type State string`. -/
abbrev State := String

/-- Go `type Symbol string`. -/
abbrev Symbol := String

/-- Go `TransitionKey`: the (state, symbol) pair indexing the transition map. -/
structure TransitionKey where
  state : State
  symbol : Symbol
  deriving DecidableEq, Repr

/-- Go `FSM` struct: the 5-tuple plus the mutable `currentState` cursor.
The zero value of a Go string is `""`, so a fresh builder has
`initialState = ""` and `currentState = ""`. -/
structure FSM where
  states : List State
  alphabet : List Symbol
  initialState : State
  finalStates : List State
  transitions : List (TransitionKey × State)
  currentState : State
  deriving DecidableEq, Repr

/-- Insertion into a Go map-used-as-set: `m[k] = true` leaves the map
unchanged when `k` is present and otherwise adds `k`. -/
def insertLabel (l : List String) (s : String) : List String :=
  if s ∈ l then l else l ++ [s]

/-- Association-list lookup for the transition map. -/
def findTransition (ts : List (TransitionKey × State)) (k : TransitionKey) :
    Option State :=
  match ts with
  | [] => none
  | (k2, v) :: rest => if k2 = k then some v else findTransition rest k

/-- Go `NewBuilder`: all maps empty, `initialState` and `currentState` at the
Go zero value `""`.  The `Builder` struct holds nothing but the `*FSM`, so a
builder is identified with the `FSM` value it owns. -/
def newBuilder : FSM :=
  { states := [], alphabet := [], initialState := "", finalStates := [],
    transitions := [], currentState := "" }

/-- Go `Builder.AddStates`: inserts each label into the state set. -/
def AddStates (b : FSM) (ss : List State) : FSM :=
  { b with states := ss.foldl insertLabel b.states }

/-- Go `Builder.AddSymbols`: inserts each label into the alphabet. -/
def AddSymbols (b : FSM) (ss : List Symbol) : FSM :=
  { b with alphabet := ss.foldl insertLabel b.alphabet }

/-- Go `Builder.SetInitialState`. -/
def SetInitialState (b : FSM) (state : State) : FSM × Option String :=
  if state ∉ b.states then
    (b, some ("state " ++ state ++ " not in state set"))
  else
    ({ b with initialState := state }, none)

/-- Go `Builder.AddFinalStates`: walks the argument list in order, stopping
with an error at the first label outside the state set; labels before it are
already inserted when the error is returned. -/
def AddFinalStates (b : FSM) : List State → FSM × Option String
  | [] => (b, none)
  | s :: rest =>
    if s ∉ b.states then
      (b, some ("state " ++ s ++ " not in state set"))
    else
      AddFinalStates { b with finalStates := insertLabel b.finalStates s } rest

/-- Go `Builder.AddTransition`: four checks in source order, then the map
insert. -/
def AddTransition (b : FSM) (state : State) (symbol : Symbol)
    (nextState : State) : FSM × Option String :=
  if state ∉ b.states then
    (b, some ("state " ++ state ++ " not in state set"))
  else if nextState ∉ b.states then
    (b, some ("next state " ++ nextState ++ " not in state set"))
  else if symbol ∉ b.alphabet then
    (b, some ("symbol " ++ symbol ++ " not in alphabet"))
  else
    match findTransition b.transitions ⟨state, symbol⟩ with
    | some _ =>
      (b, some ("transition δ(" ++ state ++ ", " ++ symbol ++ ") already defined"))
    | none =>
      ({ b with transitions := b.transitions ++ [(⟨state, symbol⟩, nextState)] },
       none)

/-- Inner loop of Go `Builder.AddTransitions` over one `map[TransitionKey]State`
(the map's unspecified iteration order is modelled as list order; every caller
in the repository passes singleton maps). -/
def addTransitionGroup (b : FSM) : List (TransitionKey × State) → FSM × Option String
  | [] => (b, none)
  | (k, v) :: rest =>
    match AddTransition b k.state k.symbol v with
    | (b2, some e) => (b2, some e)
    | (b2, none) => addTransitionGroup b2 rest

/-- Go `Builder.AddTransitions`: applies the groups in slice order, stopping
at the first error with no rollback. -/
def AddTransitions (b : FSM) :
    List (List (TransitionKey × State)) → FSM × Option String
  | [] => (b, none)
  | g :: rest =>
    match addTransitionGroup b g with
    | (b2, some e) => (b2, some e)
    | (b2, none) => AddTransitions b2 rest

/-- Totality scan of Go `Build` for a fixed state: first symbol of `alpha`
with no transition from `s`. -/
def findMissingSym (ts : List (TransitionKey × State)) (s : State) :
    List Symbol → Option TransitionKey
  | [] => none
  | a :: rest =>
    match findTransition ts ⟨s, a⟩ with
    | some _ => findMissingSym ts s rest
    | none => some ⟨s, a⟩

/-- Totality scan of Go `Build`: first (state, symbol) pair of the cross
product with no transition (Go iterates the two maps in unspecified order;
the model iterates in insertion order). -/
def findMissing (sts : List State) (alpha : List Symbol)
    (ts : List (TransitionKey × State)) : Option TransitionKey :=
  match sts with
  | [] => none
  | s :: rest =>
    match findMissingSym ts s alpha with
    | some k => some k
    | none => findMissing rest alpha ts

/-- Go `Builder.Build`: the five structural checks in source order, then the
totality scan; on success it sets `currentState` to the initial state and
returns the builder's own `FSM` (`return b.fsm, nil`), so the returned
automaton and the post-`Build` builder state are the same value. -/
def build (b : FSM) : Except String FSM :=
  if b.states.length = 0 then
    Except.error "FSM must have at least one state"
  else if b.alphabet.length = 0 then
    Except.error "FSM must have at least one symbol in alphabet"
  else if b.initialState = "" then
    Except.error "FSM must have an initial state"
  else if b.finalStates.length = 0 then
    Except.error "FSM must have at least one final state"
  else if b.initialState ∉ b.states then
    Except.error "initial state must be in state set"
  else
    match findMissing b.states b.alphabet b.transitions with
    | some k =>
      Except.error ("transition δ(" ++ k.state ++ ", " ++ k.symbol ++ ") is not defined")
    | none => Except.ok { b with currentState := b.initialState }

/-- Go `FSM.Reset`. -/
def Reset (f : FSM) : FSM :=
  { f with currentState := f.initialState }

/-- Go `FSM.step`: alphabet check, transition lookup, cursor move.  A failing
step returns the `FSM` unchanged. -/
def step (f : FSM) (symbol : Symbol) : FSM × Option String :=
  if symbol ∉ f.alphabet then
    (f, some ("symbol " ++ symbol ++ " not in alphabet"))
  else
    match findTransition f.transitions ⟨f.currentState, symbol⟩ with
    | none =>
      (f, some ("no transition defined for δ(" ++ f.currentState ++ ", " ++ symbol ++ ")"))
    | some nextState => ({ f with currentState := nextState }, none)

/-- Loop body of Go `FSM.ProcessString` over the rune sequence of the input. -/
def processChars (f : FSM) : List Char → FSM × Option String
  | [] => (f, none)
  | c :: rest =>
    match step f (String.singleton c) with
    | (f2, some e) => (f2, some e)
    | (f2, none) => processChars f2 rest

/-- Go `FSM.ProcessString`: steps through the runes of `input` in order,
returning the first error. -/
def ProcessString (f : FSM) (input : String) : FSM × Option String :=
  processChars f input.toList

/-- Go `FSM.IsFinalState`. -/
def IsFinalState (f : FSM) : Bool :=
  f.finalStates.contains f.currentState

/-- Go `FSM.ProcessInput`: `Reset`, then `ProcessString`; `(false, err)` on
failure, `(IsFinalState(), nil)` on success.  Result is (new state, accepted,
error). -/
def ProcessInput (f : FSM) (input : String) : FSM × Bool × Option String :=
  match ProcessString (Reset f) input with
  | (f2, some e) => (f2, false, some e)
  | (f2, none) => (f2, IsFinalState f2, none)

/-- One Go builder-API call (the operations a caller can apply to a
`Builder`). -/
inductive BuilderOp where
  | addStates (ss : List State)
  | addSymbols (ss : List Symbol)
  | setInitialState (s : State)
  | addFinalStates (ss : List State)
  | addTransition (s : State) (a : Symbol) (t : State)
  | addTransitions (ts : List (List (TransitionKey × State)))
  deriving Repr

/-- Effect of one builder-API call on the builder's `FSM` (errors discarded:
the Go methods return the mutated builder alongside any error). -/
def applyOp (b : FSM) : BuilderOp → FSM
  | .addStates ss => AddStates b ss
  | .addSymbols ss => AddSymbols b ss
  | .setInitialState s => (SetInitialState b s).1
  | .addFinalStates ss => (AddFinalStates b ss).1
  | .addTransition s a t => (AddTransition b s a t).1
  | .addTransitions ts => (AddTransitions b ts).1

/-- A sequence of builder-API calls. -/
def applyOps (b : FSM) (ops : List BuilderOp) : FSM :=
  ops.foldl applyOp b

/-- The builder-API calls `main.go` performs to assemble the modulo-3
automaton. -/
def mod3Ops : List BuilderOp :=
  [ .addStates ["S0", "S1", "S2"]
  , .addSymbols ["0", "1"]
  , .setInitialState "S0"
  , .addFinalStates ["S0", "S1", "S2"]
  , .addTransitions
      [ [(⟨"S0", "0"⟩, "S0")], [(⟨"S0", "1"⟩, "S1")], [(⟨"S1", "0"⟩, "S2")]
      , [(⟨"S1", "1"⟩, "S0")], [(⟨"S2", "0"⟩, "S1")], [(⟨"S2", "1"⟩, "S2")] ] ]

/-- The modulo-3 builder of `main.go`, as the builder-API calls leave it. -/
def mod3Builder : FSM :=
  applyOps newBuilder mod3Ops

/-- The modulo-3 automaton `main.go` obtains from `Build()`. -/
def mod3FSM : FSM :=
  { states := ["S0", "S1", "S2"]
  , alphabet := ["0", "1"]
  , initialState := "S0"
  , finalStates := ["S0", "S1", "S2"]
  , transitions :=
      [ (⟨"S0", "0"⟩, "S0"), (⟨"S0", "1"⟩, "S1"), (⟨"S1", "0"⟩, "S2")
      , (⟨"S1", "1"⟩, "S0"), (⟨"S2", "0"⟩, "S1"), (⟨"S2", "1"⟩, "S2") ]
  , currentState := "S0" }

/-- The state with a given residue index, `n mod 3 = i ↦ Si`. -/
def mod3State : Nat → State
  | 0 => "S0"
  | 1 => "S1"
  | _ => "S2"

/-- Value of a bit string read most-significant-bit first, continuing from
accumulator `n`. -/
def foldVal (n : Nat) (cs : List Char) : Nat :=
  cs.foldl (fun m c => 2 * m + (if c = '1' then 1 else 0)) n

/-- Unsigned value denoted by a binary string. -/
def binVal (cs : List Char) : Nat :=
  foldVal 0 cs

deriving instance DecidableEq for Except

/-- Accumulator-passing form of one `ProcessString` iteration: once an error
has occurred it is carried through unchanged, otherwise the next symbol is
stepped.  Stated from the specification sentence for `ProcessString`
("applies `step` to each symbol in order, stopping at the first failure,
no rollback"), to be compared with the source-translated `ProcessString`. -/
def stepFold (acc : FSM × Option String) (c : Char) : FSM × Option String :=
  match acc with
  | (g, some e) => (g, some e)
  | (g, none) => step g (String.singleton c)

/-- Specification-level restatement of `ProcessString`: a left fold of
`stepFold` over the symbols of the input, in order. -/
def ProcessStringSpec (f : FSM) (input : String) : FSM × Option String :=
  input.toList.foldl stepFold (f, none)

/-- Builder invariant: every registered transition targets a state of the
state set. -/
def TransOk (b : FSM) : Prop :=
  ∀ p ∈ b.transitions, p.2 ∈ b.states

/-- A builder (mirroring the repository's test `"Error on build, a transition
is not defined"`) with states `{q0}`, alphabet `{0,1}` and only the
transition δ(q0, 0) = q0 registered. -/
def c4Builder : FSM :=
  applyOps newBuilder
    [ .addStates ["q0"], .addSymbols ["0", "1"], .setInitialState "q0"
    , .addFinalStates ["q0"], .addTransition "q0" "0" "q0" ]

/-- A builder (mirroring the repository's duplicate-transition test) on which
δ(q0, 0) = q1 is already registered. -/
def c5Builder : FSM :=
  applyOps newBuilder
    [ .addStates ["q0", "q1", "q2"], .addSymbols ["0", "1"], .setInitialState "q0"
    , .addFinalStates ["q0", "q1"], .addTransition "q0" "0" "q1" ]

/-- A builder with states `{q0, q1}` and nothing else, used to exhibit the
partial application of `AddFinalStates`. -/
def c8Builder : FSM :=
  AddStates newBuilder ["q0", "q1"]

/-- A builder whose state set contains the empty-string label and nothing
else. -/
def c10Builder : FSM :=
  AddStates newBuilder [""]

/-- The builder `c10Builder` with a non-empty alphabet. -/
def c10Builder2 : FSM :=
  AddSymbols (AddStates newBuilder [""]) ["0"]

/-! ## Helper lemmas -/

theorem build_ok (b f : FSM) (h : build b = Except.ok f) :
    f = { b with currentState := b.initialState } ∧
    b.states.length ≠ 0 ∧ b.alphabet.length ≠ 0 ∧ b.initialState ≠ "" ∧
    b.finalStates.length ≠ 0 ∧ b.initialState ∈ b.states ∧
    findMissing b.states b.alphabet b.transitions = none := by
  by_cases h1 : b.states.length = 0
  · simp [build, h1] at h
  by_cases h2 : b.alphabet.length = 0
  · simp [build, h1, h2] at h
  by_cases h3 : b.initialState = ""
  · simp [build, h1, h2, h3] at h
  by_cases h4 : b.finalStates.length = 0
  · simp [build, h1, h2, h3, h4] at h
  by_cases h5 : b.initialState ∈ b.states
  · rcases hm : findMissing b.states b.alphabet b.transitions with _ | k
    · simp [build, h1, h2, h3, h4, h5, hm] at h
      exact ⟨h.symm, h1, h2, h3, h4, h5, rfl⟩
    · simp [build, h1, h2, h3, h4, h5, hm] at h
  · simp [build, h1, h2, h3, h4, h5] at h

/-! ## Claim theorems -/

/-- Claim C4: `Build()` performs its validations in the fixed order
(1) non-empty states, (2) non-empty alphabet, (3) initial state set,
(4) non-empty final states, (5) initial state in the state set,
(6) totality of the transition table, returning the first violation found
with its exact message (for a missing pair `(q, a)` the message is
`"transition δ(q, a) is not defined"`); only when every check passes does it
set `currentState` to the initial state and return the automaton. -/
theorem C4_build_validation_order (b : FSM) :
    (b.states.length = 0 →
      build b = Except.error "FSM must have at least one state") ∧
    (b.states.length ≠ 0 → b.alphabet.length = 0 →
      build b = Except.error "FSM must have at least one symbol in alphabet") ∧
    (b.states.length ≠ 0 → b.alphabet.length ≠ 0 → b.initialState = "" →
      build b = Except.error "FSM must have an initial state") ∧
    (b.states.length ≠ 0 → b.alphabet.length ≠ 0 → b.initialState ≠ "" →
      b.finalStates.length = 0 →
      build b = Except.error "FSM must have at least one final state") ∧
    (b.states.length ≠ 0 → b.alphabet.length ≠ 0 → b.initialState ≠ "" →
      b.finalStates.length ≠ 0 → b.initialState ∉ b.states →
      build b = Except.error "initial state must be in state set") ∧
    (∀ k, b.states.length ≠ 0 → b.alphabet.length ≠ 0 → b.initialState ≠ "" →
      b.finalStates.length ≠ 0 → b.initialState ∈ b.states →
      findMissing b.states b.alphabet b.transitions = some k →
      build b =
        Except.error ("transition δ(" ++ k.state ++ ", " ++ k.symbol ++ ") is not defined")) ∧
    (b.states.length ≠ 0 → b.alphabet.length ≠ 0 → b.initialState ≠ "" →
      b.finalStates.length ≠ 0 → b.initialState ∈ b.states →
      findMissing b.states b.alphabet b.transitions = none →
      build b = Except.ok { b with currentState := b.initialState }) := by
  refine ⟨?_, ?_, ?_, ?_, ?_, ?_, ?_⟩ <;> intros <;> simp_all [build]

/-- Witness for C4: the one-state builder of the repository's own test
`"Error on build, a transition is not defined"` fails the totality check at
the pair `(q0, 1)` with the message of the claimed form. -/
theorem C4_build_validation_order_witness :
    build c4Builder = Except.error "transition δ(q0, 1) is not defined" :=
  (C4_build_validation_order c4Builder).2.2.2.2.2.1 ⟨"q0", "1"⟩
    (by decide) (by decide) (by decide) (by decide) (by decide) (by decide)

/-- Claim C5: `AddTransition(state, symbol, nextState)` fails, in this
precedence order, with unknown `state`, unknown `nextState`, unknown
`symbol`, then duplicate transition (message
`"transition δ(state, symbol) already defined"`); exactly when none of these
hold it appends the mapping and returns no error. -/
theorem C5_addTransition_order (b : FSM) (s : State) (a : Symbol) (t : State) :
    (s ∉ b.states →
      AddTransition b s a t = (b, some ("state " ++ s ++ " not in state set"))) ∧
    (s ∈ b.states → t ∉ b.states →
      AddTransition b s a t = (b, some ("next state " ++ t ++ " not in state set"))) ∧
    (s ∈ b.states → t ∈ b.states → a ∉ b.alphabet →
      AddTransition b s a t = (b, some ("symbol " ++ a ++ " not in alphabet"))) ∧
    (s ∈ b.states → t ∈ b.states → a ∈ b.alphabet →
      findTransition b.transitions ⟨s, a⟩ ≠ none →
      AddTransition b s a t =
        (b, some ("transition δ(" ++ s ++ ", " ++ a ++ ") already defined"))) ∧
    (s ∈ b.states → t ∈ b.states → a ∈ b.alphabet →
      findTransition b.transitions ⟨s, a⟩ = none →
      AddTransition b s a t =
        ({ b with transitions := b.transitions ++ [(⟨s, a⟩, t)] }, none)) ∧
    ((AddTransition b s a t).2 = none ↔
      s ∈ b.states ∧ t ∈ b.states ∧ a ∈ b.alphabet ∧
      findTransition b.transitions ⟨s, a⟩ = none) := by
  refine ⟨?_, ?_, ?_, ?_, ?_, ?_⟩
  · intro h1; simp [AddTransition, h1]
  · intro h1 h2; simp [AddTransition, h1, h2]
  · intro h1 h2 h3; simp [AddTransition, h1, h2, h3]
  · intro h1 h2 h3 h4
    rcases hf : findTransition b.transitions ⟨s, a⟩ with _ | u
    · exact absurd hf h4
    · simp [AddTransition, h1, h2, h3, hf]
  · intro h1 h2 h3 h4; simp [AddTransition, h1, h2, h3, h4]
  · constructor
    · intro h
      by_cases h1 : s ∈ b.states
      · by_cases h2 : t ∈ b.states
        · by_cases h3 : a ∈ b.alphabet
          · rcases hf : findTransition b.transitions ⟨s, a⟩ with _ | u
            · exact ⟨h1, h2, h3, rfl⟩
            · simp [AddTransition, h1, h2, h3, hf] at h
          · simp [AddTransition, h1, h2, h3] at h
        · simp [AddTransition, h1, h2] at h
      · simp [AddTransition, h1] at h
    · rintro ⟨h1, h2, h3, h4⟩
      simp [AddTransition, h1, h2, h3, h4]

/-- Witness for C5: re-adding δ(q0, 0) on the repository's duplicate-transition
test builder fails with the exact message, leaving the builder unchanged. -/
theorem C5_addTransition_order_witness :
    AddTransition c5Builder "q0" "0" "q1"
      = (c5Builder, some "transition δ(q0, 0) already defined") :=
  ((C5_addTransition_order c5Builder "q0" "0" "q1").2.2.2.1
    (by decide) (by decide) (by decide) (by decide)).trans (by decide)

/-- Counterexample to claim C10 as stated: a builder whose state set contains
`""` and whose alphabet is empty passes `SetInitialState("")` but `Build()`
fails with the empty-alphabet error, not the missing-initial-state error. -/
theorem C10_counterexample :
    "" ∈ c10Builder.states ∧
    (SetInitialState c10Builder "").2 = none ∧
    build (SetInitialState c10Builder "").1 ≠
      Except.error "FSM must have an initial state" ∧
    build (SetInitialState c10Builder "").1 =
      Except.error "FSM must have at least one symbol in alphabet" := by
  decide

/-- Claim C10 (amended): for every builder whose state set contains the
empty-string label `""` and whose alphabet is non-empty, `SetInitialState("")`
succeeds and `Build()` nonetheless fails with the missing-initial-state error
`"FSM must have an initial state"`: the builder cannot distinguish an unset
initial state from an initial state labelled `""`. -/
theorem C10_empty_initial_state (b : FSM) (h : "" ∈ b.states)
    (ha : b.alphabet.length ≠ 0) :
    (SetInitialState b "").2 = none ∧
    build (SetInitialState b "").1 = Except.error "FSM must have an initial state" := by
  have h0 : b.states.length ≠ 0 := by
    intro hl
    rw [List.length_eq_zero] at hl
    rw [hl] at h
    exact absurd h (List.not_mem_nil "")
  constructor
  · simp [SetInitialState, h]
  · simp [SetInitialState, h, build, h0, ha]

/-- Witness for C10 (amended): the concrete builder with state set `{""}` and
alphabet `{0}`. -/
theorem C10_empty_initial_state_witness :
    (SetInitialState c10Builder2 "").2 = none ∧
    build (SetInitialState c10Builder2 "").1 =
      Except.error "FSM must have an initial state" :=
  C10_empty_initial_state c10Builder2 (by decide) (by decide)

/-- Counterexample to claim C1 as stated: `Build` returns the builder's own
`FSM`, so the subsequent builder operation `AddStates("S3")` changes the
`states` field of the automaton previously returned for the modulo-3
builder. -/
theorem C1_counterexample :
    build mod3Builder = Except.ok mod3FSM ∧
    (applyOps mod3FSM [BuilderOp.addStates ["S3"]]).states ≠ mod3FSM.states := by
  decide

/-- Claim C1 (amended): a successful `Build()` freezes nothing: the returned
automaton is the builder's own `FSM` value (its four structural fields are
the builder's, with `currentState` set to the initial state), and a
subsequent `AddStates` with a label not already present changes the `states`
field of the previously returned automaton.  The structural fields survive
subsequent builder operations only when those operations do not modify the
builder's sets. -/
theorem C1_build_aliases_builder (b f : FSM) (hb : build b = Except.ok f) :
    (f.states = b.states ∧ f.alphabet = b.alphabet ∧
     f.finalStates = b.finalStates ∧ f.transitions = b.transitions ∧
     f.currentState = b.initialState) ∧
    ∀ s, s ∉ f.states →
      (applyOps f [BuilderOp.addStates [s]]).states ≠ f.states := by
  obtain ⟨hf, -, -, -, -, -, -⟩ := build_ok b f hb
  subst hf
  refine ⟨⟨rfl, rfl, rfl, rfl, rfl⟩, ?_⟩
  intro s hs heq
  have hlen := congrArg List.length heq
  simp only [applyOps, List.foldl, applyOp, AddStates, insertLabel] at hlen
  rw [if_neg hs] at hlen
  simp at hlen

/-- Witness for C1 (amended): the modulo-3 automaton of `main.go`; adding the
fresh state `S3` through the builder changes the automaton's `states`. -/
theorem C1_build_aliases_builder_witness :
    mod3FSM.states = mod3Builder.states ∧
    (applyOps mod3FSM [BuilderOp.addStates ["S3"]]).states ≠ mod3FSM.states :=
  ⟨(C1_build_aliases_builder mod3Builder mod3FSM (by decide)).1.1,
   (C1_build_aliases_builder mod3Builder mod3FSM (by decide)).2 "S3" (by decide)⟩

/-- Claim C6: `ProcessInput(input)` first resets (so the outcome is the same
whatever the cursor held before the call), then runs `ProcessString`; a
failure is returned as `(false, error)` without evaluating acceptance, and on
success the result is `(IsFinalState(), nil)`. -/
theorem C6_processInput_composition (f : FSM) (input : String) :
    (∀ c, ProcessInput { f with currentState := c } input = ProcessInput f input) ∧
    (∀ f2 e, ProcessString (Reset f) input = (f2, some e) →
      ProcessInput f input = (f2, false, some e)) ∧
    (∀ f2, ProcessString (Reset f) input = (f2, none) →
      ProcessInput f input = (f2, IsFinalState f2, none)) := by
  refine ⟨fun c => rfl, ?_, ?_⟩
  · intro f2 e h
    unfold ProcessInput
    rw [h]
  · intro f2 h
    unfold ProcessInput
    rw [h]

/-- Witness for C6: on the modulo-3 automaton the input `"2"` fails at its
first symbol, so `ProcessInput` reports `(false, symbol error)` and the
cursor stays at the initial state. -/
theorem C6_processInput_composition_witness :
    ProcessInput mod3FSM "2" = (mod3FSM, false, some "symbol 2 not in alphabet") :=
  (C6_processInput_composition mod3FSM "2").2.1 mod3FSM
    "symbol 2 not in alphabet" (by decide)

theorem foldl_stepFold_error :
    ∀ (cs : List Char) (g : FSM) (e : String),
      cs.foldl stepFold (g, some e) = (g, some e)
  | [], _, _ => rfl
  | _ :: cs, g, e => foldl_stepFold_error cs g e

theorem processChars_eq_foldl :
    ∀ (cs : List Char) (f : FSM),
      processChars f cs = cs.foldl stepFold (f, none) := by
  intro cs
  induction cs with
  | nil => intro f; rfl
  | cons c rest ih =>
    intro f
    simp only [processChars, List.foldl_cons]
    rcases h : step f (String.singleton c) with ⟨f2, e⟩
    rcases e with _ | e
    · simp only []
      rw [ih f2]
      have : stepFold (f, none) c = (f2, none) := by
        simp [stepFold, h]
      rw [this]
    · simp only []
      have : stepFold (f, none) c = (f2, some e) := by
        simp [stepFold, h]
      rw [this, foldl_stepFold_error]

/-- Claim C7: `ProcessString` equals the in-order left fold of `step` over
the symbols of the input, which stops at (and returns) the first error while
keeping the state reached after the last successful step; moreover a failing
`step` by itself leaves the machine (in particular `currentState`)
unchanged. -/
theorem C7_processString_in_order :
    (∀ (f : FSM) (input : String),
      ProcessString f input = ProcessStringSpec f input) ∧
    (∀ (f : FSM) (a : Symbol) (f2 : FSM) (e : String),
      step f a = (f2, some e) → f2 = f) := by
  constructor
  · intro f input
    exact processChars_eq_foldl input.toList f
  · intro f a f2 e h
    unfold step at h
    split at h
    · injection h with h1 h2
      exact h1.symm
    · split at h
      · injection h with h1 h2
        exact h1.symm
      · injection h with h1 h2
        exact Option.noConfusion h2

/-- Witness for C7: the failing step on symbol `"2"` leaves the modulo-3
automaton exactly where it was. -/
theorem C7_processString_in_order_witness :
    ProcessString mod3FSM "101" = ProcessStringSpec mod3FSM "101" ∧
    (step mod3FSM "2").1 = mod3FSM :=
  ⟨C7_processString_in_order.1 mod3FSM "101",
   C7_processString_in_order.2 mod3FSM "2" (step mod3FSM "2").1
     "symbol 2 not in alphabet" (by decide)⟩

/-- Claim C8: `AddFinalStates` walks its labels in order: at the first label
outside the state set it stops with the unknown-state error, the earlier
labels of the same call being already inserted (partial application, no
rollback); when every label is known, all are inserted and no error is
returned. -/
theorem C8_addFinalStates_first_unknown :
    (∀ (b : FSM) (good : List State) (bad : State) (rest : List State),
      (∀ s ∈ good, s ∈ b.states) → bad ∉ b.states →
      AddFinalStates b (good ++ bad :: rest)
        = ({ b with finalStates := good.foldl insertLabel b.finalStates },
           some ("state " ++ bad ++ " not in state set"))) ∧
    (∀ (b : FSM) (ss : List State), (∀ s ∈ ss, s ∈ b.states) →
      AddFinalStates b ss
        = ({ b with finalStates := ss.foldl insertLabel b.finalStates }, none)) := by
  constructor
  · intro b good
    induction good generalizing b with
    | nil =>
      intro bad rest _ hbad
      simp only [List.nil_append, AddFinalStates]
      rw [if_pos hbad]
      rfl
    | cons s good ih =>
      intro bad rest hgood hbad
      have hs : s ∈ b.states := hgood s (List.mem_cons_self s good)
      simp only [List.cons_append, AddFinalStates]
      rw [if_neg (not_not_intro hs)]
      exact ih _ bad rest (fun x hx => hgood x (List.mem_cons_of_mem s hx)) hbad
  · intro b ss
    induction ss generalizing b with
    | nil => intro _; rfl
    | cons s ss ih =>
      intro hss
      have hs : s ∈ b.states := hss s (List.mem_cons_self s ss)
      simp only [AddFinalStates]
      rw [if_neg (not_not_intro hs)]
      exact ih _ (fun x hx => hss x (List.mem_cons_of_mem s hx))

/-- Witness for C8: on a builder with states `{q0, q1}`, the call
`AddFinalStates("q0", "X", "q1")` fails at `"X"` with `q0` already inserted
and `q1` never processed. -/
theorem C8_addFinalStates_first_unknown_witness :
    AddFinalStates c8Builder ["q0", "X", "q1"]
      = ({ c8Builder with finalStates := ["q0"] },
         some "state X not in state set") :=
  (C8_addFinalStates_first_unknown.1 c8Builder ["q0"] "X" ["q1"]
    (by decide) (by decide)).trans (by decide)

theorem mod3_run :
    ∀ (cs : List Char), ∀ (n : Nat), (∀ c ∈ cs, c = '0' ∨ c = '1') →
      processChars { mod3FSM with currentState := mod3State (n % 3) } cs
        = ({ mod3FSM with currentState := mod3State (foldVal n cs % 3) }, none) := by
  intro cs
  induction cs with
  | nil => intro n _; rfl
  | cons c rest ih =>
    intro n h
    have hc : c = '0' ∨ c = '1' := h c (List.mem_cons_self c rest)
    have hrest : ∀ x ∈ rest, x = '0' ∨ x = '1' :=
      fun x hx => h x (List.mem_cons_of_mem c hx)
    have h3 : n % 3 = 0 ∨ n % 3 = 1 ∨ n % 3 = 2 := by omega
    rcases hc with hc | hc <;> subst hc <;> rcases h3 with h3 | h3 | h3 <;> rw [h3]
    · have key := ih (2 * n + 0) hrest
      rw [show (2 * n + 0) % 3 = 0 from by omega] at key
      exact key
    · have key := ih (2 * n + 0) hrest
      rw [show (2 * n + 0) % 3 = 2 from by omega] at key
      exact key
    · have key := ih (2 * n + 0) hrest
      rw [show (2 * n + 0) % 3 = 1 from by omega] at key
      exact key
    · have key := ih (2 * n + 1) hrest
      rw [show (2 * n + 1) % 3 = 1 from by omega] at key
      exact key
    · have key := ih (2 * n + 1) hrest
      rw [show (2 * n + 1) % 3 = 0 from by omega] at key
      exact key
    · have key := ih (2 * n + 1) hrest
      rw [show (2 * n + 1) % 3 = 2 from by omega] at key
      exact key

/-- Claim C3: on the modulo-3 automaton of `main.go`, processing any binary
string `w` of value `n` succeeds and ends in the state of index `n mod 3`. -/
theorem C3_mod3_correct (cs : List Char) (h : ∀ c ∈ cs, c = '0' ∨ c = '1') :
    (ProcessInput mod3FSM (String.mk cs)).1.currentState = mod3State (binVal cs % 3) ∧
    (ProcessInput mod3FSM (String.mk cs)).2.2 = none := by
  have hPS : ProcessString (Reset mod3FSM) (String.mk cs)
      = ({ mod3FSM with currentState := mod3State (binVal cs % 3) }, none) :=
    mod3_run cs 0 h
  unfold ProcessInput
  rw [hPS]
  exact ⟨rfl, rfl⟩

/-- Witness for C3: `"110"` (6) ends in S0, `"1101"` (13) ends in S1 and
`"1011"` (11) ends in S2. -/
theorem C3_mod3_correct_witness :
    (ProcessInput mod3FSM "110").1.currentState = "S0" ∧
    (ProcessInput mod3FSM "1101").1.currentState = "S1" ∧
    (ProcessInput mod3FSM "1011").1.currentState = "S2" :=
  ⟨(C3_mod3_correct ['1', '1', '0'] (by decide)).1.trans (by decide),
   (C3_mod3_correct ['1', '1', '0', '1'] (by decide)).1.trans (by decide),
   (C3_mod3_correct ['1', '0', '1', '1'] (by decide)).1.trans (by decide)⟩

theorem mem_insertLabel_of_mem {l : List String} {x : String} (s : String)
    (h : x ∈ l) : x ∈ insertLabel l s := by
  unfold insertLabel
  split
  · exact h
  · exact List.mem_append_left _ h

theorem subset_foldl_insertLabel :
    ∀ (ss : List String) (l : List String), l ⊆ ss.foldl insertLabel l := by
  intro ss
  induction ss with
  | nil => intro l x hx; exact hx
  | cons s ss ih =>
    intro l x hx
    exact ih (insertLabel l s) (mem_insertLabel_of_mem s hx)

theorem setInitialState_fields (b : FSM) (s : State) :
    ((SetInitialState b s).1).states = b.states ∧
    ((SetInitialState b s).1).transitions = b.transitions := by
  unfold SetInitialState
  split <;> exact ⟨rfl, rfl⟩

theorem addFinalStates_fields :
    ∀ (ss : List State) (b : FSM),
      ((AddFinalStates b ss).1).states = b.states ∧
      ((AddFinalStates b ss).1).transitions = b.transitions := by
  intro ss
  induction ss with
  | nil => intro b; exact ⟨rfl, rfl⟩
  | cons s ss ih =>
    intro b
    simp only [AddFinalStates]
    split
    · exact ⟨rfl, rfl⟩
    · exact ih { b with finalStates := insertLabel b.finalStates s }

theorem addTransition_states (b : FSM) (s : State) (a : Symbol) (t : State) :
    ((AddTransition b s a t).1).states = b.states := by
  unfold AddTransition
  split
  · rfl
  · split
    · rfl
    · split
      · rfl
      · split <;> rfl

theorem addTransition_trans (b : FSM) (s : State) (a : Symbol) (t : State) :
    ((AddTransition b s a t).1).transitions = b.transitions ∨
    (t ∈ b.states ∧
      ((AddTransition b s a t).1).transitions = b.transitions ++ [(⟨s, a⟩, t)]) := by
  unfold AddTransition
  split
  · exact Or.inl rfl
  · split
    · exact Or.inl rfl
    · split
      · exact Or.inl rfl
      · split
        · exact Or.inl rfl
        · rename_i ht _ _ _
          exact Or.inr ⟨not_not.mp ht, rfl⟩

theorem transOk_addTransition (b : FSM) (s : State) (a : Symbol) (t : State)
    (h : TransOk b) : TransOk (AddTransition b s a t).1 := by
  intro p hp
  rw [addTransition_states]
  rcases addTransition_trans b s a t with ht | ⟨hmem, ht⟩
  · rw [ht] at hp
    exact h p hp
  · rw [ht] at hp
    rcases List.mem_append.mp hp with hp | hp
    · exact h p hp
    · rcases List.mem_singleton.mp hp with rfl
      exact hmem

theorem addTransitionGroup_states_transOk :
    ∀ (g : List (TransitionKey × State)) (b : FSM),
      ((addTransitionGroup b g).1).states = b.states ∧
      (TransOk b → TransOk (addTransitionGroup b g).1) := by
  intro g
  induction g with
  | nil => intro b; exact ⟨rfl, fun h => h⟩
  | cons kv g ih =>
    intro b
    rcases kv with ⟨k, v⟩
    simp only [addTransitionGroup]
    rcases hA : AddTransition b k.state k.symbol v with ⟨b2, e⟩
    have hst : b2.states = b.states := by
      have := addTransition_states b k.state k.symbol v
      rw [hA] at this
      exact this
    have hok : TransOk b → TransOk b2 := by
      intro h
      have := transOk_addTransition b k.state k.symbol v h
      rw [hA] at this
      exact this
    rcases e with _ | e
    · exact ⟨(ih b2).1.trans hst, fun h => (ih b2).2 (hok h)⟩
    · exact ⟨hst, hok⟩

theorem addTransitions_states_transOk :
    ∀ (gs : List (List (TransitionKey × State))) (b : FSM),
      ((AddTransitions b gs).1).states = b.states ∧
      (TransOk b → TransOk (AddTransitions b gs).1) := by
  intro gs
  induction gs with
  | nil => intro b; exact ⟨rfl, fun h => h⟩
  | cons g gs ih =>
    intro b
    simp only [AddTransitions]
    rcases hG : addTransitionGroup b g with ⟨b2, e⟩
    have hst : b2.states = b.states := by
      have := (addTransitionGroup_states_transOk g b).1
      rw [hG] at this
      exact this
    have hok : TransOk b → TransOk b2 := by
      intro h
      have := (addTransitionGroup_states_transOk g b).2 h
      rw [hG] at this
      exact this
    rcases e with _ | e
    · exact ⟨(ih b2).1.trans hst, fun h => (ih b2).2 (hok h)⟩
    · exact ⟨hst, hok⟩

theorem transOk_applyOp (b : FSM) (op : BuilderOp) (h : TransOk b) :
    TransOk (applyOp b op) := by
  rcases op with ss | ss | s | ss | ⟨s, a, t⟩ | ts
  · intro p hp
    exact subset_foldl_insertLabel ss b.states (h p hp)
  · exact h
  · intro p hp
    simp only [applyOp] at hp ⊢
    rw [(setInitialState_fields b s).1]
    rw [(setInitialState_fields b s).2] at hp
    exact h p hp
  · intro p hp
    simp only [applyOp] at hp ⊢
    rw [(addFinalStates_fields ss b).1]
    rw [(addFinalStates_fields ss b).2] at hp
    exact h p hp
  · exact transOk_addTransition b s a t h
  · exact (addTransitions_states_transOk ts b).2 h

theorem transOk_applyOps :
    ∀ (ops : List BuilderOp) (b : FSM), TransOk b → TransOk (applyOps b ops) := by
  intro ops
  induction ops with
  | nil => intro b h; exact h
  | cons op ops ih =>
    intro b h
    exact ih (applyOp b op) (transOk_applyOp b op h)

theorem findTransition_mem :
    ∀ (ts : List (TransitionKey × State)) (k : TransitionKey) (t : State),
      findTransition ts k = some t → (k, t) ∈ ts := by
  intro ts
  induction ts with
  | nil => intro k t h; exact Option.noConfusion h
  | cons kv rest ih =>
    intro k t h
    rcases kv with ⟨k2, v⟩
    unfold findTransition at h
    split at h
    · rename_i heq
      injection h with h
      subst heq
      subst h
      exact List.mem_cons_self _ _
    · exact List.mem_cons_of_mem _ (ih k t h)

theorem findMissingSym_none :
    ∀ (alpha : List Symbol) (ts : List (TransitionKey × State)) (s : State),
      findMissingSym ts s alpha = none →
      ∀ a ∈ alpha, ∃ t, findTransition ts ⟨s, a⟩ = some t := by
  intro alpha
  induction alpha with
  | nil => intro ts s _ a ha; exact absurd ha (List.not_mem_nil a)
  | cons a0 alpha ih =>
    intro ts s h a ha
    unfold findMissingSym at h
    rcases hf : findTransition ts ⟨s, a0⟩ with _ | t
    · rw [hf] at h
      exact Option.noConfusion h
    · rw [hf] at h
      rcases List.mem_cons.mp ha with rfl | ha
      · exact ⟨t, hf⟩
      · exact ih ts s h a ha

theorem findMissing_none :
    ∀ (sts : List State) (alpha : List Symbol) (ts : List (TransitionKey × State)),
      findMissing sts alpha ts = none →
      ∀ s ∈ sts, ∀ a ∈ alpha, ∃ t, findTransition ts ⟨s, a⟩ = some t := by
  intro sts
  induction sts with
  | nil => intro alpha ts _ s hs; exact absurd hs (List.not_mem_nil s)
  | cons s0 sts ih =>
    intro alpha ts h s hs a ha
    unfold findMissing at h
    rcases hf : findMissingSym ts s0 alpha with _ | k
    · rw [hf] at h
      rcases List.mem_cons.mp hs with rfl | hs
      · exact findMissingSym_none alpha ts s hf a ha
      · exact ih alpha ts h s hs a ha
    · rw [hf] at h
      exact Option.noConfusion h

theorem step_ok (f : FSM) (a : Symbol) (t : State) (ha : a ∈ f.alphabet)
    (ht : findTransition f.transitions ⟨f.currentState, a⟩ = some t) :
    step f a = ({ f with currentState := t }, none) := by
  unfold step
  rw [if_neg (not_not_intro ha), ht]

/-- Claim C2: any automaton a successful `Build()` yields from an API-built
builder is total: for every state `s` of its state set and symbol `a` of its
alphabet, `step(a)` taken at `s` returns no error (so the
transition-undefined branch of `step` is unreachable) and moves the cursor to
a member of the state set. -/
theorem C2_build_totality (ops : List BuilderOp) (f : FSM)
    (hb : build (applyOps newBuilder ops) = Except.ok f) :
    ∀ s ∈ f.states, ∀ a ∈ f.alphabet,
      (step { f with currentState := s } a).2 = none ∧
      (step { f with currentState := s } a).1.currentState ∈ f.states := by
  intro s hs a ha
  obtain ⟨hf, -, -, -, -, -, hm⟩ := build_ok (applyOps newBuilder ops) f hb
  have hok : TransOk (applyOps newBuilder ops) :=
    transOk_applyOps ops newBuilder (fun p hp => absurd hp (List.not_mem_nil p))
  subst hf
  obtain ⟨t, ht⟩ := findMissing_none _ _ _ hm s hs a ha
  have hstep := step_ok { (applyOps newBuilder ops) with currentState := s } a t ha ht
  rw [hstep]
  exact ⟨rfl, hok (⟨s, a⟩, t) (findTransition_mem _ _ _ ht)⟩

/-- Witness for C2: on the modulo-3 automaton, stepping from S1 on `"0"`
succeeds and lands inside the state set. -/
theorem C2_build_totality_witness :
    (step { mod3FSM with currentState := "S1" } "0").2 = none ∧
    (step { mod3FSM with currentState := "S1" } "0").1.currentState ∈ mod3FSM.states :=
  C2_build_totality mod3Ops mod3FSM (by decide) "S1" (by decide) "0" (by decide)

theorem step_eta (f : FSM) (a : Symbol) :
    (step f a).1 = { f with currentState := (step f a).1.currentState } := by
  unfold step
  split
  · rfl
  · split <;> rfl

theorem processChars_eta :
    ∀ (cs : List Char) (f : FSM),
      (processChars f cs).1
        = { f with currentState := (processChars f cs).1.currentState } := by
  intro cs
  induction cs with
  | nil => intro f; rfl
  | cons c rest ih =>
    intro f
    have hs := step_eta f (String.singleton c)
    simp only [processChars]
    rcases h : step f (String.singleton c) with ⟨f2, e⟩
    rw [h] at hs
    rcases e with _ | e
    · have hs2 : f2 = { f with currentState := f2.currentState } := hs
      simp only []
      calc (processChars f2 rest).1
          = { f2 with currentState := (processChars f2 rest).1.currentState } := ih f2
        _ = { f with currentState := (processChars f2 rest).1.currentState } := by
            rw [hs2]
    · simp only []
      exact hs

theorem processInput_fst (f : FSM) (w : String) :
    (ProcessInput f w).1 = (ProcessString (Reset f) w).1 := by
  unfold ProcessInput
  rcases h : ProcessString (Reset f) w with ⟨f2, e⟩
  rcases e with _ | e <;> rfl

/-- Claim C9: on a successfully built automaton, a second `ProcessInput(w)`
returns exactly the first call's result (same acceptance, same error, same
final state), and more generally the cursor position before a
`ProcessInput(w)` call never influences its outcome. -/
theorem C9_processInput_deterministic (b f : FSM) (hb : build b = Except.ok f)
    (w : String) :
    ProcessInput (ProcessInput f w).1 w = ProcessInput f w ∧
    ∀ c, ProcessInput { f with currentState := c } w = ProcessInput f w := by
  have hcur : ∀ c, ProcessInput { f with currentState := c } w = ProcessInput f w :=
    fun c => rfl
  refine ⟨?_, hcur⟩
  have h1 : (ProcessInput f w).1
      = { f with currentState := (ProcessInput f w).1.currentState } := by
    rw [processInput_fst]
    exact processChars_eta w.toList (Reset f)
  calc ProcessInput (ProcessInput f w).1 w
      = ProcessInput { f with currentState := (ProcessInput f w).1.currentState } w := by
        rw [← h1]
    _ = ProcessInput f w := hcur _

/-- Witness for C9: two successive runs of `"1101"` on the modulo-3 automaton
agree completely. -/
theorem C9_processInput_deterministic_witness :
    ProcessInput (ProcessInput mod3FSM "1101").1 "1101" = ProcessInput mod3FSM "1101" :=
  (C9_processInput_deterministic mod3Builder mod3FSM (by decide) "1101").1

end Fsm
